import Mathlib

/-
Verification of the serial protocol, connection manager, state store and
telemetry mapper of the line-follower application.  Each definition is a
shallow embedding of the corresponding Python function; machine bytes are
natural numbers below 256, fallible operations return Option.
-/

/-- Wire start byte, SERIAL_FRAME_START in serial_protocol.py. -/
def SERIAL_FRAME_START : Nat := 0xAA

/-- The SerialMessages IntEnum of serial_protocol.py (values 0 to 30). -/
inductive SerialMessages where
  | INVALID_MESSAGE
  | PING
  | START
  | STOP
  | STATE
  | RUNNING_MODE
  | STOP_MODE
  | LAPS
  | STOP_TIME
  | STOP_DISTANCE
  | LOG_DATA
  | PID_KP
  | PID_KI
  | PID_KD
  | PID_KB
  | PID_KFF
  | PID_ALPHA
  | PID_CLAMP
  | PID_ACCEL
  | PID_BASE_PWM
  | PID_MAX_PWM
  | TURBINE_PWM
  | SPEED_KP
  | SPEED_KI
  | SPEED_KD
  | SPEED_KFF
  | BASE_SPEED
  | LOOKAHEAD
  | WHEEL_BASE_CORRECTION
  | IMU_ALPHA
  | OPERATION_DATA
  deriving DecidableEq

/-- Numeric value of each enum member. -/
def SerialMessages.toNat : SerialMessages → Nat
  | .INVALID_MESSAGE => 0
  | .PING => 1
  | .START => 2
  | .STOP => 3
  | .STATE => 4
  | .RUNNING_MODE => 5
  | .STOP_MODE => 6
  | .LAPS => 7
  | .STOP_TIME => 8
  | .STOP_DISTANCE => 9
  | .LOG_DATA => 10
  | .PID_KP => 11
  | .PID_KI => 12
  | .PID_KD => 13
  | .PID_KB => 14
  | .PID_KFF => 15
  | .PID_ALPHA => 16
  | .PID_CLAMP => 17
  | .PID_ACCEL => 18
  | .PID_BASE_PWM => 19
  | .PID_MAX_PWM => 20
  | .TURBINE_PWM => 21
  | .SPEED_KP => 22
  | .SPEED_KI => 23
  | .SPEED_KD => 24
  | .SPEED_KFF => 25
  | .BASE_SPEED => 26
  | .LOOKAHEAD => 27
  | .WHEEL_BASE_CORRECTION => 28
  | .IMU_ALPHA => 29
  | .OPERATION_DATA => 30

/-- Membership test plus conversion: models the Python pattern
"value in SerialMessages" followed by "SerialMessages(value)". -/
def SerialMessages.ofNat? : Nat → Option SerialMessages
  | 0 => some .INVALID_MESSAGE
  | 1 => some .PING
  | 2 => some .START
  | 3 => some .STOP
  | 4 => some .STATE
  | 5 => some .RUNNING_MODE
  | 6 => some .STOP_MODE
  | 7 => some .LAPS
  | 8 => some .STOP_TIME
  | 9 => some .STOP_DISTANCE
  | 10 => some .LOG_DATA
  | 11 => some .PID_KP
  | 12 => some .PID_KI
  | 13 => some .PID_KD
  | 14 => some .PID_KB
  | 15 => some .PID_KFF
  | 16 => some .PID_ALPHA
  | 17 => some .PID_CLAMP
  | 18 => some .PID_ACCEL
  | 19 => some .PID_BASE_PWM
  | 20 => some .PID_MAX_PWM
  | 21 => some .TURBINE_PWM
  | 22 => some .SPEED_KP
  | 23 => some .SPEED_KI
  | 24 => some .SPEED_KD
  | 25 => some .SPEED_KFF
  | 26 => some .BASE_SPEED
  | 27 => some .LOOKAHEAD
  | 28 => some .WHEEL_BASE_CORRECTION
  | 29 => some .IMU_ALPHA
  | 30 => some .OPERATION_DATA
  | _ => none

/-- SERIAL_MESSAGE_SIZES: declared payload size in bytes for each type. -/
def messageSize : SerialMessages → Nat
  | .INVALID_MESSAGE => 0
  | .PING => 0
  | .START => 0
  | .STOP => 0
  | .STATE => 1
  | .RUNNING_MODE => 1
  | .STOP_MODE => 1
  | .LAPS => 1
  | .STOP_TIME => 1
  | .LOG_DATA => 1
  | .PID_KP => 1
  | .PID_KI => 1
  | .PID_KD => 2
  | .PID_KB => 1
  | .PID_KFF => 1
  | .PID_ACCEL => 2
  | .PID_BASE_PWM => 2
  | .PID_MAX_PWM => 2
  | .TURBINE_PWM => 2
  | .SPEED_KP => 2
  | .SPEED_KI => 2
  | .SPEED_KD => 2
  | .BASE_SPEED => 2
  | .PID_ALPHA => 2
  | .PID_CLAMP => 2
  | .STOP_DISTANCE => 2
  | .OPERATION_DATA => 8
  | .LOOKAHEAD => 1
  | .SPEED_KFF => 2
  | .WHEEL_BASE_CORRECTION => 2
  | .IMU_ALPHA => 2

/-- Little-endian unsigned value of a byte list, as int.from_bytes(le). -/
def natFromBytesLE (l : List Nat) : Nat :=
  l.foldr (fun b acc => b + 256 * acc) 0

/-- Little-endian byte list of length n for an in-range value,
as value.to_bytes(n, "little"). -/
def toBytesLE : Nat → Nat → List Nat
  | 0, _ => []
  | n + 1, v => v % 256 :: toBytesLE n (v / 256)

/-- int.to_bytes of a Python int: raises OverflowError (None here) when the
value is negative or does not fit in n bytes. -/
def pyToBytes (n : Nat) (v : Int) : Option (List Nat) :=
  if 0 ≤ v ∧ v < (256 : Int) ^ n then some (toBytesLE n v.toNat) else none

/-- The SerialMessage dataclass: type, payload bytes, payload size. -/
structure SerialMessage where
  message : SerialMessages
  payload : List Nat
  size : Nat
  deriving DecidableEq

/-- The INVALID sentinel SerialMessage(INVALID_MESSAGE, empty, 0). -/
def invalidMessage : SerialMessage :=
  { message := .INVALID_MESSAGE, payload := [], size := 0 }

/-- XOR fold of the type id with every payload byte, masked to 8 bits. -/
def checksum (t : SerialMessages) (payload : List Nat) : Nat :=
  (payload.foldl (fun acc b => acc ^^^ b) t.toNat) &&& 0xFF

/-- SerialMessage._validate_checksum. -/
def validateChecksum (t : SerialMessages) (payload : List Nat) (c : Nat) : Bool :=
  ((payload.foldl (fun acc b => acc ^^^ b) t.toNat) &&& 0xFF) == c

/-- SerialMessage.from_frame: decode a whole wire frame, failing soft to the
INVALID sentinel.  Each list access is guarded by the preceding length
checks, exactly as in the Python code. -/
def SerialMessage.fromFrame (frame : List Nat) : SerialMessage :=
  if frame.length < 3 then invalidMessage
  else if frame.headD 0 ≠ SERIAL_FRAME_START then invalidMessage
  else
    match SerialMessages.ofNat? (frame.getD 1 0) with
    | none => invalidMessage
    | some t =>
      if frame.length ≠ messageSize t + 3 then invalidMessage
      else
        let payload := (frame.drop 2).take (messageSize t)
        if validateChecksum t payload (frame.getLastD 0) then
          { message := t, payload := payload, size := messageSize t }
        else invalidMessage

/-- SerialMessage.from_message: build from components, optionally
validating a received checksum. -/
def SerialMessage.fromMessage (t : SerialMessages) (payload : List Nat)
    (chk : Option Nat) : SerialMessage :=
  if payload.length ≠ messageSize t then invalidMessage
  else
    match chk with
    | some c =>
      if validateChecksum t payload c then
        { message := t, payload := payload, size := messageSize t }
      else invalidMessage
    | none => { message := t, payload := payload, size := messageSize t }

/-- SerialMessage.from_int: value.to_bytes may raise, modeled as None. -/
def SerialMessage.fromInt (t : SerialMessages) (v : Int) : Option SerialMessage :=
  (pyToBytes (messageSize t) v).map
    (fun p => SerialMessage.fromMessage t p none)

/-- SerialMessage.from_bool: a literal one-byte payload, never raises. -/
def SerialMessage.fromBool (t : SerialMessages) (b : Bool) : SerialMessage :=
  SerialMessage.fromMessage t [if b then 1 else 0] none

/-- Python int() applied to a rational: truncation toward zero, the
T-division of the numerator by the denominator. -/
def pyInt (q : Rat) : Int :=
  q.num.tdiv (q.den : Int)

/-- SerialMessage.from_float: the code multiplies every value by 100
(whatever the message type) and truncates with int() before encoding. -/
def SerialMessage.fromFloat (t : SerialMessages) (v : Rat) : Option SerialMessage :=
  (pyToBytes (messageSize t) (pyInt (v * 100))).map
    (fun p => SerialMessage.fromMessage t p none)

/-- The frame property of SerialMessage: type id byte followed by payload. -/
def SerialMessage.frameBytes (m : SerialMessage) : List Nat :=
  m.message.toNat :: m.payload

/-- A full wire frame for a type and payload: start byte, id, payload,
checksum.  This is the framing from_frame expects. -/
def wireFrame (t : SerialMessages) (p : List Nat) : List Nat :=
  SERIAL_FRAME_START :: t.toNat :: p ++ [checksum t p]

/-- Re-encoding of a decoded message to wire form: start byte, the frame
property bytes, and the checksum recomputed by the codec. -/
def SerialMessage.reencode (m : SerialMessage) : List Nat :=
  SERIAL_FRAME_START :: m.frameBytes ++ [checksum m.message m.payload]

/-- The error conditions listed by the specification for from_frame:
short frame, wrong start byte, unknown type id, length mismatch against
the size table, or checksum mismatch. -/
def fromFrameErrorB (frame : List Nat) : Bool :=
  if frame.length < 3 then true
  else if frame.headD 0 ≠ SERIAL_FRAME_START then true
  else
    match SerialMessages.ofNat? (frame.getD 1 0) with
    | none => true
    | some t =>
      if frame.length ≠ messageSize t + 3 then true
      else !validateChecksum t ((frame.drop 2).take (messageSize t)) (frame.getLastD 0)

/-- The explicit state machine phases of SerialParser. -/
inductive ParserPhase where
  | SYNC
  | ID
  | PAYLOAD
  | CHECKSUM
  deriving DecidableEq

/-- Mutable fields of SerialParser. -/
structure SerialParser where
  state : ParserPhase
  msgId : SerialMessages
  expectedPayloadSize : Nat
  payload : List Nat
  logBuffer : List Nat
  deriving DecidableEq

/-- Observable callback invocations of the parser: on_frame with a decoded
message, or on_log with the bytes of one text line. -/
inductive ParserEvent where
  | frame (m : SerialMessage)
  | log (bytes : List Nat)
  deriving DecidableEq

/-- A freshly constructed SerialParser. -/
def SerialParser.init : SerialParser :=
  { state := .SYNC, msgId := .INVALID_MESSAGE, expectedPayloadSize := 0,
    payload := [], logBuffer := [] }

/-- SerialParser.feed_byte, returning the new parser state and the list of
callbacks fired by this byte (empty or a single event). -/
def SerialParser.feedByte (p : SerialParser) (b : Nat) : SerialParser × List ParserEvent :=
  match p.state with
  | .SYNC =>
    if b = 0xAA then ({ p with state := .ID }, [])
    else if b ≠ 0x0A then ({ p with logBuffer := p.logBuffer ++ [b] }, [])
    else ({ p with logBuffer := [] }, [.log p.logBuffer])
  | .ID =>
    let msgId := (SerialMessages.ofNat? b).getD .INVALID_MESSAGE
    let sz := messageSize msgId
    ({ p with msgId := msgId, expectedPayloadSize := sz, payload := [],
              state := if sz > 0 then .PAYLOAD else .CHECKSUM }, [])
  | .PAYLOAD =>
    let pl := p.payload ++ [b]
    ({ p with payload := pl,
              state := if pl.length = p.expectedPayloadSize then .CHECKSUM else .PAYLOAD }, [])
  | .CHECKSUM =>
    ({ p with state := .SYNC },
     [.frame (SerialMessage.fromMessage p.msgId p.payload (some b))])

/-- Feed a byte list one byte at a time, concatenating emitted events. -/
def SerialParser.feedBytes : SerialParser → List Nat → SerialParser × List ParserEvent
  | p, [] => (p, [])
  | p, b :: bs =>
    let r := p.feedByte b
    let s := r.1.feedBytes bs
    (s.1, r.2 ++ s.2)

/-- The message type the _handle_id_byte step resolves an id byte to:
unknown bytes map to the INVALID type with payload size zero. -/
def resolveId (i : Nat) : SerialMessages :=
  (SerialMessages.ofNat? i).getD .INVALID_MESSAGE

/-- The RobotStates IntEnum of robot_configs.py. -/
inductive RobotStates where
  | INIT
  | IDLE
  | RUNNING
  | STOPPED
  | ERROR
  deriving DecidableEq

/-- RobotStates(value): None models the ValueError raised for a value that
is not a member. -/
def RobotStates.ofNat? : Nat → Option RobotStates
  | 0 => some .INIT
  | 1 => some .IDLE
  | 2 => some .RUNNING
  | 3 => some .STOPPED
  | 4 => some .ERROR
  | _ => none

/-- The RunningModes IntEnum of robot_configs.py. -/
inductive RunningModes where
  | INIT
  | SENSOR_TEST
  | TURBINE_TEST
  | ENCODER_TEST
  | PID
  | PURE_PURSUIT
  deriving DecidableEq

/-- RunningModes(value), None for a ValueError. -/
def RunningModes.ofNat? : Nat → Option RunningModes
  | 0 => some .INIT
  | 1 => some .SENSOR_TEST
  | 2 => some .TURBINE_TEST
  | 3 => some .ENCODER_TEST
  | 4 => some .PID
  | 5 => some .PURE_PURSUIT
  | _ => none

/-- The StopModes IntEnum of robot_configs.py. -/
inductive StopModes where
  | NONE
  | TIME
  | LAPS
  deriving DecidableEq

/-- StopModes(value), None for a ValueError. -/
def StopModes.ofNat? : Nat → Option StopModes
  | 0 => some .NONE
  | 1 => some .TIME
  | 2 => some .LAPS
  | _ => none

/-- Signed little-endian value of a byte list, as
int.from_bytes(le, signed=True). -/
def intFromBytesLEs (l : List Nat) : Int :=
  let u := natFromBytesLE l
  if 2 * u < 256 ^ l.length then (u : Int) else (u : Int) - (256 : Int) ^ l.length

/-- The decoded fields of the OperationData telemetry record. -/
structure OperationDataR where
  centralSensorsByte : Nat
  leftSensor : Nat
  rightSensor : Nat
  sensors : List Nat
  x : Int
  y : Int
  heading : Rat
  deriving DecidableEq

/-- OperationData after _empty_init. -/
def emptyOperationData : OperationDataR :=
  { centralSensorsByte := 0, leftSensor := 0, rightSensor := 0,
    sensors := List.replicate 10 0, x := 0, y := 0, heading := 0 }

/-- OperationData.update: payload[0] and payload[1] raise IndexError when
the payload is shorter than 2 bytes (None here); the slices never raise.
The heading equals the signed raw value divided by 10000; comparing these
rationals is equivalent to comparing the Python floats, because the
division by 10000 is injective on int16 doubles. -/
def OperationDataR.update (payload : List Nat) : Option OperationDataR :=
  if payload.length < 2 then none
  else
    let central := payload.getD 0 0
    let left := (payload.getD 1 0) &&& 1
    let right := ((payload.getD 1 0) >>> 1) &&& 1
    some
      { centralSensorsByte := central, leftSensor := left, rightSensor := right,
        sensors := left :: ((List.range 8).map (fun i => (central >>> i) &&& 1) ++ [right]),
        x := intFromBytesLEs ((payload.drop 2).take 2),
        y := intFromBytesLEs ((payload.drop 4).take 2),
        heading := Rat.divInt (intFromBytesLEs ((payload.drop 6).take 2)) 10000 }

/-- One CSV row of Mapper._write_csv: the ten sensors, x, y, heading. -/
def csvRow (od : OperationDataR) : List Rat :=
  od.sensors.map (fun (n : Nat) => (n : Rat)) ++
    [(od.x : Rat), (od.y : Rat), od.heading]

/-- The Mapper of track_mapper.py; its three output files are modeled as
lists of appended items. -/
structure Mapper where
  operationData : OperationDataR
  lastEncoderUpdate : OperationDataR
  binaryLog : List (List Nat)
  sensorCsv : List (List Rat)
  encoderCsv : List (List Rat)
  deriving DecidableEq

/-- A freshly constructed Mapper with empty logs. -/
def initMapper : Mapper :=
  { operationData := emptyOperationData, lastEncoderUpdate := emptyOperationData,
    binaryLog := [], sensorCsv := [], encoderCsv := [] }

/-- Mapper.handle_operation_data followed by _handle_encoder_update.  In
the code the binary write precedes the update call; the update can only
raise for payloads shorter than 2 bytes, which decoded OPERATION_DATA
frames never produce, and is modeled as None for the whole call. -/
def Mapper.handleOperationData (mp : Mapper) (payload : List Nat) : Option Mapper :=
  match OperationDataR.update payload with
  | none => none
  | some od =>
    let binLog := mp.binaryLog ++ [payload]
    let sensorCsv := mp.sensorCsv ++ [csvRow od]
    if od.x = mp.lastEncoderUpdate.x ∧ od.y = mp.lastEncoderUpdate.y ∧
        od.heading = mp.lastEncoderUpdate.heading then
      some { mp with operationData := od, binaryLog := binLog, sensorCsv := sensorCsv }
    else
      some { mp with operationData := od, binaryLog := binLog, sensorCsv := sensorCsv,
                     lastEncoderUpdate := od,
                     encoderCsv := mp.encoderCsv ++ [csvRow od] }

/-- Process a list of OPERATION_DATA payloads in order. -/
def mapperRun (mp : Mapper) : List (List Nat) → Option Mapper
  | [] => some mp
  | p :: ps =>
    match Mapper.handleOperationData mp p with
    | none => none
    | some mp2 => mapperRun mp2 ps

/-- The configuration fields of the LineFollower singleton, all
initialized to None.  Fixed-point fields are stored as rationals after
applying the declared divisor, mirroring the float they hold in Python. -/
structure LineFollowerState where
  kp : Option Int
  ki : Option Int
  kd : Option Int
  kff : Option Int
  kb : Option Int
  acceleration : Option Int
  alpha : Option Rat
  clamp : Option Int
  basePwm : Option Int
  maxPwm : Option Int
  state : Option RobotStates
  runningMode : Option RunningModes
  stopMode : Option StopModes
  laps : Option Int
  stopTime : Option Int
  stopDistance : Option Int
  logData : Option Bool
  turbinePwm : Option Int
  speedKp : Option Int
  speedKi : Option Rat
  speedKd : Option Int
  speedKff : Option Int
  baseSpeed : Option Rat
  lookahead : Option Int
  curvatureGain : Option Rat
  imuAlpha : Option Rat
  deriving DecidableEq

/-- A freshly constructed LineFollower: every field is None. -/
def initialLineFollower : LineFollowerState :=
  { kp := none, ki := none, kd := none, kff := none, kb := none,
    acceleration := none, alpha := none, clamp := none, basePwm := none,
    maxPwm := none, state := none, runningMode := none, stopMode := none,
    laps := none, stopTime := none, stopDistance := none, logData := none,
    turbinePwm := none, speedKp := none, speedKi := none, speedKd := none,
    speedKff := none, baseSpeed := none, lookahead := none,
    curvatureGain := none, imuAlpha := none }

/-- Outcome of looking up and running one updater of the _config_map. -/
inductive HandlerResult where
  | notHandled
  | raised
  | ok (changed : Bool) (lf : LineFollowerState)

/-- The compare-and-set body shared by every updater: returns the changed
flag and the stored value. -/
def updField {a : Type} [DecidableEq a] (cur : Option a) (v : a) : Bool × Option a :=
  if cur = some v then (false, cur) else (true, some v)

/-- Dispatch through the _config_map of LineFollower: one compare-and-set
updater per message type; the three enum updaters raise for raw values
outside the enum; types absent from the map are notHandled. -/
def configUpdate (lf : LineFollowerState) (t : SerialMessages) (v : Nat) : HandlerResult :=
  match t with
  | .PID_KP => let r := updField lf.kp (v : Int); .ok r.1 { lf with kp := r.2 }
  | .PID_KI => let r := updField lf.ki (v : Int); .ok r.1 { lf with ki := r.2 }
  | .PID_KD => let r := updField lf.kd (v : Int); .ok r.1 { lf with kd := r.2 }
  | .PID_KB => let r := updField lf.kb (v : Int); .ok r.1 { lf with kb := r.2 }
  | .PID_KFF => let r := updField lf.kff (v : Int); .ok r.1 { lf with kff := r.2 }
  | .PID_ACCEL => let r := updField lf.acceleration (v : Int); .ok r.1 { lf with acceleration := r.2 }
  | .PID_BASE_PWM => let r := updField lf.basePwm (v : Int); .ok r.1 { lf with basePwm := r.2 }
  | .PID_MAX_PWM => let r := updField lf.maxPwm (v : Int); .ok r.1 { lf with maxPwm := r.2 }
  | .STATE =>
    match RobotStates.ofNat? v with
    | none => .raised
    | some s =>
      if lf.state = some s then .ok false lf else .ok true { lf with state := some s }
  | .RUNNING_MODE =>
    match RunningModes.ofNat? v with
    | none => .raised
    | some m =>
      if lf.runningMode = some m then .ok false lf
      else .ok true { lf with runningMode := some m }
  | .STOP_MODE =>
    match StopModes.ofNat? v with
    | none => .raised
    | some m =>
      if lf.stopMode = some m then .ok false lf else .ok true { lf with stopMode := some m }
  | .LAPS => let r := updField lf.laps (v : Int); .ok r.1 { lf with laps := r.2 }
  | .STOP_TIME => let r := updField lf.stopTime (v : Int); .ok r.1 { lf with stopTime := r.2 }
  | .STOP_DISTANCE => let r := updField lf.stopDistance (v : Int); .ok r.1 { lf with stopDistance := r.2 }
  | .LOG_DATA => let r := updField lf.logData (v == 1); .ok r.1 { lf with logData := r.2 }
  | .TURBINE_PWM => let r := updField lf.turbinePwm (v : Int); .ok r.1 { lf with turbinePwm := r.2 }
  | .SPEED_KP => let r := updField lf.speedKp (v : Int); .ok r.1 { lf with speedKp := r.2 }
  | .SPEED_KI => let r := updField lf.speedKi ((v : Rat) / 10000); .ok r.1 { lf with speedKi := r.2 }
  | .SPEED_KD => let r := updField lf.speedKd (v : Int); .ok r.1 { lf with speedKd := r.2 }
  | .SPEED_KFF => let r := updField lf.speedKff (v : Int); .ok r.1 { lf with speedKff := r.2 }
  | .BASE_SPEED => let r := updField lf.baseSpeed ((v : Rat) / 100); .ok r.1 { lf with baseSpeed := r.2 }
  | .PID_ALPHA => let r := updField lf.alpha ((v : Rat) / 100); .ok r.1 { lf with alpha := r.2 }
  | .PID_CLAMP => let r := updField lf.clamp (v : Int); .ok r.1 { lf with clamp := r.2 }
  | .LOOKAHEAD => let r := updField lf.lookahead (v : Int); .ok r.1 { lf with lookahead := r.2 }
  | .WHEEL_BASE_CORRECTION =>
    let r := updField lf.curvatureGain ((v : Rat) / 100); .ok r.1 { lf with curvatureGain := r.2 }
  | .IMU_ALPHA => let r := updField lf.imuAlpha ((v : Rat) / 100); .ok r.1 { lf with imuAlpha := r.2 }
  | .INVALID_MESSAGE => .notHandled
  | .PING => .notHandled
  | .START => .notHandled
  | .STOP => .notHandled
  | .OPERATION_DATA => .notHandled

/-- Signals emitted by the SignalHandler of LineFollower. -/
inductive LFEvent where
  | stateChanged (s : RobotStates)
  | attrChanged (t : SerialMessages) (v : Nat)
  deriving DecidableEq

/-- LineFollower._handle_serial_message: route OPERATION_DATA to the
mapper, ignore types outside the _config_map, otherwise decode the payload
little-endian unsigned, run the updater, emit state_changed on every STATE
frame and attr_changed only when the updater reports a change.  None
models an uncaught exception. -/
def handleSerialMessage (lf : LineFollowerState) (mp : Mapper) (msg : SerialMessage) :
    Option (LineFollowerState × Mapper × List LFEvent) :=
  if msg.message = .OPERATION_DATA then
    (Mapper.handleOperationData mp msg.payload).map (fun mp2 => (lf, mp2, []))
  else
    let value := natFromBytesLE msg.payload
    match configUpdate lf msg.message value with
    | .notHandled => some (lf, mp, [])
    | .raised => none
    | .ok changed lf2 =>
      some (lf2, mp,
        (if msg.message = .STATE then [.stateChanged (lf2.state.getD .INIT)] else [])
          ++ (if changed then [.attrChanged msg.message value] else []))

/-- Scale factors as the specification declares them: value times 100 for
the scaled types, value times 10000 for SPEED_KI. -/
def floatScale (t : SerialMessages) : Nat :=
  if t = .SPEED_KI then 10000 else 100

/-- Rounding of a rational to the nearest integer, half away from zero
upward: the floor of q plus one half. -/
def ratRound (q : Rat) : Int :=
  (2 * q.num + (q.den : Int)).fdiv (2 * (q.den : Int))

/-- Modelled from the wording of the specification for from_float (not
from the code): multiply by the per-type scale factor and round before
encoding.  Kept for comparison against SerialMessage.fromFloat. -/
def fromFloatSpec (t : SerialMessages) (v : Rat) : Option SerialMessage :=
  (pyToBytes (messageSize t) (ratRound (v * (floatScale t : Rat)))).map
    (fun p => SerialMessage.fromMessage t p none)

/-- Connection-relevant state of BluetoothApi: the configured port name
and whether the transport is open. -/
structure BtState where
  comPort : String
  connected : Bool
  deriving DecidableEq

/-- The trailing decimal digit run of a port name, as the regex search for
digits anchored at the end; None when the name does not end in a digit. -/
def portKeyNum (s : String) : Option Nat :=
  let ds := (s.data.reverse.takeWhile (fun c => c.isDigit)).reverse
  if ds.isEmpty then none
  else some (ds.foldl (fun acc c => 10 * acc + (c.toNat - 48)) 0)

/-- BluetoothApi._port_key: the pair of the trailing number (infinity,
that is top, when there is none) and the lowercased name, compared
lexicographically exactly like the Python tuple key. -/
def portKey (s : String) : WithTop Nat × String :=
  (match portKeyNum s with
   | some n => (n : WithTop Nat)
   | none => ⊤, s.toLower)

/-- The port ordering: lexicographic comparison of the keys. -/
def portLE (a b : String) : Prop := toLex (portKey a) ≤ toLex (portKey b)

instance : DecidableRel portLE := fun a b => by
  unfold portLE
  infer_instance

instance : IsTotal String portLE := ⟨fun x y => le_total (toLex (portKey x)) (toLex (portKey y))⟩

instance : IsTrans String portLE := ⟨fun _ _ _ h1 h2 => le_trans h1 h2⟩

/-- BluetoothApi.list_available_ports: the enumerated ports sorted by the
natural-sort key.  The Python sorted builtin is a stable sort; insertion
sort is stable for the same total preorder, so the results agree. -/
def listAvailablePorts (ports : List String) : List String :=
  List.insertionSort portLE ports

/-- BluetoothApi.set_com_port: the boolean result together with the
resulting state.  The port list argument stands for the ports enumerated
by the operating system at the moment of the call. -/
def setComPort (avail : List String) (st : BtState) (p : String) : Bool × BtState :=
  if p = st.comPort then (false, st)
  else if st.connected then (false, st)
  else if p ∉ listAvailablePorts avail then (false, st)
  else (true, { st with comPort := p })

/-- The x, y and heading cells of a CSV row (positions 10, 11, 12). -/
def rowXYH (r : List Rat) : Rat × Rat × Rat :=
  (r.getD 10 0, r.getD 11 0, r.getD 12 0)

/-- The x, y and heading of a decoded record, as written to a row. -/
def odXYH (od : OperationDataR) : Rat × Rat × Rat :=
  ((od.x : Rat), (od.y : Rat), od.heading)

/-- The invariant tying the gating record to the gated CSV: when at least
one row has been written, the retained last-logged record carries exactly
the x, y and heading of the last written row. -/
def encoderInv (mp : Mapper) : Prop :=
  mp.encoderCsv ≠ [] →
    mp.encoderCsv.getLast?.map rowXYH = some (odXYH mp.lastEncoderUpdate)

/-- The dual-log gating property exactly as the claim states it: a row is
appended to the gated CSV if and only if the decoded x, y or heading
differs from the values at the last row written to that CSV (vacuously
when no row has been written yet). -/
def claimGatedByLastRow : Prop :=
  ∀ (mp : Mapper) (p : List Nat), p.length = 8 →
    ∀ mp2, Mapper.handleOperationData mp p = some mp2 →
      ∀ od, OperationDataR.update p = some od →
        (mp2.encoderCsv.length = mp.encoderCsv.length + 1 ↔
          (mp.encoderCsv.getLast?.map rowXYH ≠ some (odXYH od)))
theorem ofNat?_toNat (t : SerialMessages) : SerialMessages.ofNat? t.toNat = some t := by
  cases t <;> rfl

theorem toNat_le_30 (t : SerialMessages) : t.toNat ≤ 30 := by
  cases t <;> simp [SerialMessages.toNat]

theorem ofNat?_eq_some_iff (n : Nat) (t : SerialMessages) :
    SerialMessages.ofNat? n = some t ↔ n = t.toNat := by
  constructor
  · intro h
    unfold SerialMessages.ofNat? at h
    split at h
    all_goals first
      | exact Option.noConfusion h
      | (injection h with h2; subst h2; rfl)
  · rintro rfl
    exact ofNat?_toNat t

theorem validateChecksum_self (t : SerialMessages) (p : List Nat) :
    validateChecksum t p (checksum t p) = true := by
  simp [validateChecksum, checksum]

theorem take_len_append {α : Type} (l r : List α) : (l ++ r).take l.length = l := by
  induction l with
  | nil => simp
  | cons a tl ih => simp [ih]

theorem getLastD_append_single {α : Type} (l : List α) (a d : α) :
    (l ++ [a]).getLastD d = a := by
  induction l generalizing d with
  | nil => rfl
  | cons b tl ih =>
    show (b :: (tl ++ [a])).getLastD d = a
    rw [List.getLastD_cons]
    exact ih b

theorem fromFrame_shape (t : SerialMessages) (p : List Nat) (c : Nat)
    (hlen : p.length = messageSize t) :
    SerialMessage.fromFrame (SERIAL_FRAME_START :: t.toNat :: p ++ [c]) =
      if validateChecksum t p c then { message := t, payload := p, size := messageSize t }
      else invalidMessage := by
  have hl : (SERIAL_FRAME_START :: t.toNat :: p ++ [c]).length = messageSize t + 3 := by
    simp [← hlen]
  have h3 : ¬ (SERIAL_FRAME_START :: t.toNat :: p ++ [c]).length < 3 := by omega
  have htake : ((SERIAL_FRAME_START :: t.toNat :: p ++ [c]).drop 2).take (messageSize t) = p := by
    show (p ++ [c]).take (messageSize t) = p
    rw [← hlen]
    exact take_len_append p [c]
  have hlast : (SERIAL_FRAME_START :: t.toNat :: p ++ [c]).getLastD 0 = c := by
    have : SERIAL_FRAME_START :: t.toNat :: p ++ [c] =
        (SERIAL_FRAME_START :: t.toNat :: p) ++ [c] := by simp
    rw [this, getLastD_append_single]
  unfold SerialMessage.fromFrame
  rw [if_neg h3]
  rw [if_neg (by simp [SERIAL_FRAME_START])]
  have hget : (SERIAL_FRAME_START :: t.toNat :: p ++ [c]).getD 1 0 = t.toNat := rfl
  rw [hget, ofNat?_toNat]
  simp only [hl, htake, hlast]
  rw [if_neg (by omega)]

/-- Claim C1: decoding the wire frame of any message type and any payload
of the declared size yields that type, that payload and the table size,
and re-encoding the decoded message reproduces the original frame. -/
theorem c1_frame_roundtrip (t : SerialMessages) (p : List Nat)
    (hlen : p.length = messageSize t) :
    SerialMessage.fromFrame (wireFrame t p) =
      { message := t, payload := p, size := messageSize t } ∧
    (SerialMessage.fromFrame (wireFrame t p)).reencode = wireFrame t p := by
  have h1 : SerialMessage.fromFrame (wireFrame t p) =
      { message := t, payload := p, size := messageSize t } := by
    show SerialMessage.fromFrame (SERIAL_FRAME_START :: t.toNat :: p ++ [checksum t p]) = _
    rw [fromFrame_shape t p (checksum t p) hlen, if_pos (validateChecksum_self t p)]
  exact ⟨h1, by rw [h1]; rfl⟩

/-- Witness for claim C1 at the STATE type with payload byte 2. -/
theorem c1_frame_roundtrip_witness :
    SerialMessage.fromFrame (wireFrame .STATE [2]) =
      { message := SerialMessages.STATE, payload := [2], size := 1 } ∧
    (SerialMessage.fromFrame (wireFrame .STATE [2])).reencode = wireFrame .STATE [2] :=
  c1_frame_roundtrip .STATE [2] (by decide)

theorem fromFrameCases (f : List Nat) :
    (fromFrameErrorB f = true ∧ SerialMessage.fromFrame f = invalidMessage) ∨
    (fromFrameErrorB f = false ∧ ∃ t, SerialMessages.ofNat? (f.getD 1 0) = some t ∧
      f.length = messageSize t + 3 ∧ f.headD 0 = SERIAL_FRAME_START ∧
      validateChecksum t ((f.drop 2).take (messageSize t)) (f.getLastD 0) = true ∧
      SerialMessage.fromFrame f =
        { message := t, payload := (f.drop 2).take (messageSize t),
          size := messageSize t }) := by
  unfold SerialMessage.fromFrame fromFrameErrorB
  by_cases h1 : f.length < 3
  · left
    rw [if_pos h1, if_pos h1]
    exact ⟨rfl, rfl⟩
  · rw [if_neg h1, if_neg h1]
    by_cases h2 : f.headD 0 ≠ SERIAL_FRAME_START
    · left
      rw [if_pos h2, if_pos h2]
      exact ⟨rfl, rfl⟩
    · rw [if_neg h2, if_neg h2]
      push_neg at h2
      cases hof : SerialMessages.ofNat? (f.getD 1 0) with
      | none => left; simp [hof]
      | some t =>
        simp only [hof]
        by_cases h3 : f.length ≠ messageSize t + 3
        · left
          rw [if_pos h3, if_pos h3]
          exact ⟨rfl, rfl⟩
        · rw [if_neg h3, if_neg h3]
          push_neg at h3
          cases hv : validateChecksum t ((f.drop 2).take (messageSize t)) (f.getLastD 0) with
          | false => left; simp [hv]
          | true =>
            right
            exact ⟨by simp [hv], t, rfl, h3, h2, hv, by simp [hv]⟩

/-- Counterexample for claim C2: the three-byte frame of the
INVALID_MESSAGE type itself satisfies none of the listed error conditions
yet from_frame returns a message structurally identical to the sentinel. -/
theorem c2_counterexample :
    SerialMessage.fromFrame [0xAA, 0, 0] = invalidMessage ∧
    fromFrameErrorB [0xAA, 0, 0] = false := by
  constructor
  · rfl
  · rfl

theorem validateChecksum_eq (t : SerialMessages) (p : List Nat) (c : Nat) :
    validateChecksum t p c = (checksum t p == c) := rfl

theorem checksum_xor_pow_ne (t : SerialMessages) (p : List Nat) (k : Nat) :
    checksum t p ≠ checksum t p ^^^ 2 ^ k := by
  intro heq
  have h0 : checksum t p ^^^ (checksum t p ^^^ 2 ^ k) = checksum t p ^^^ checksum t p := by
    rw [← heq]
  rw [← Nat.xor_assoc, Nat.xor_self, Nat.zero_xor] at h0
  have := Nat.pos_pow_of_pos k (by norm_num : 0 < 2)
  omega

/-- Claim C2 (amended): from_frame returns the sentinel exactly on the
listed error conditions or on the frame of the INVALID type itself; on
every other input it returns a fully populated message; and flipping any
single checksum bit of a well-formed frame yields the sentinel. -/
theorem c2_invalid_characterization (f : List Nat) :
    (SerialMessage.fromFrame f = invalidMessage ↔
      (fromFrameErrorB f = true ∨ f = [0xAA, 0, 0])) ∧
    (fromFrameErrorB f = false →
      ∃ t, SerialMessages.ofNat? (f.getD 1 0) = some t ∧
        SerialMessage.fromFrame f =
          { message := t, payload := (f.drop 2).take (messageSize t),
            size := messageSize t } ∧
        ((f.drop 2).take (messageSize t)).length = messageSize t) ∧
    (∀ (t : SerialMessages) (p : List Nat) (k : Nat), p.length = messageSize t → k < 8 →
      SerialMessage.fromFrame
          (SERIAL_FRAME_START :: t.toNat :: p ++ [checksum t p ^^^ 2 ^ k]) =
        invalidMessage) := by
  refine ⟨⟨?_, ?_⟩, ?_, ?_⟩
  · intro h
    rcases fromFrameCases f with ⟨he, _⟩ | ⟨he, t, hof, h3, h2, hv, heq⟩
    · exact Or.inl he
    · right
      rw [heq] at h
      have ht : t = .INVALID_MESSAGE := congrArg SerialMessage.message h
      subst ht
      have hsz : messageSize SerialMessages.INVALID_MESSAGE = 0 := rfl
      rw [hsz] at h3
      obtain ⟨a, b, c, rfl⟩ := List.length_eq_three.mp h3
      have ha : a = 0xAA := h2
      subst ha
      have hb : b = 0 := by
        have := (ofNat?_eq_some_iff _ _).mp hof
        simpa [List.getD] using this
      subst hb
      have hc : c = 0 := by
        have hv2 : (checksum SerialMessages.INVALID_MESSAGE [] == c) = true := by
          simpa [validateChecksum_eq] using hv
        have : checksum SerialMessages.INVALID_MESSAGE [] = c := by
          simpa using hv2
        simpa [checksum, SerialMessages.toNat] using this.symm
      subst hc
      rfl
  · rintro (h | rfl)
    · rcases fromFrameCases f with ⟨_, hinv⟩ | ⟨he, _⟩
      · exact hinv
      · rw [h] at he
        exact absurd he (by simp)
    · rfl
  · intro h
    rcases fromFrameCases f with ⟨he, _⟩ | ⟨he, t, hof, h3, h2, hv, heq⟩
    · rw [h] at he
      exact absurd he (by simp)
    · refine ⟨t, hof, heq, ?_⟩
      rw [List.length_take, List.length_drop, h3]
      omega
  · intro t p k hlen _
    rw [fromFrame_shape t p _ hlen, if_neg]
    simp only [validateChecksum_eq, beq_iff_eq]
    exact checksum_xor_pow_ne t p k

/-- Witness for claim C2 at a frame with an out-of-range type byte, a
well-formed STATE frame, and a one-bit checksum corruption of it. -/
theorem c2_invalid_characterization_witness :
    SerialMessage.fromFrame [0xAA, 0xAB, 0] = invalidMessage ∧
    (∃ t, SerialMessages.ofNat? (([0xAA, 4, 2, 6] : List Nat).getD 1 0) = some t ∧
      SerialMessage.fromFrame [0xAA, 4, 2, 6] =
        { message := t,
          payload := (([0xAA, 4, 2, 6] : List Nat).drop 2).take (messageSize t),
          size := messageSize t } ∧
      ((([0xAA, 4, 2, 6] : List Nat).drop 2).take (messageSize t)).length = messageSize t) ∧
    SerialMessage.fromFrame
        (SERIAL_FRAME_START :: SerialMessages.toNat .STATE ::
          [2] ++ [checksum .STATE [2] ^^^ 2 ^ 0]) =
      invalidMessage := by
  refine ⟨?_, ?_, ?_⟩
  · exact (c2_invalid_characterization [0xAA, 0xAB, 0]).1.mpr (Or.inl (by decide))
  · exact (c2_invalid_characterization [0xAA, 4, 2, 6]).2.1 (by decide)
  · exact (c2_invalid_characterization []).2.2 .STATE [2] 0 (by decide) (by decide)

theorem fromMessage_valid (t : SerialMessages) (p : List Nat)
    (hlen : p.length = messageSize t) :
    SerialMessage.fromMessage t p (some (checksum t p)) =
      { message := t, payload := p, size := messageSize t } := by
  unfold SerialMessage.fromMessage
  rw [if_neg (by omega)]
  simp only [validateChecksum_self, if_pos]

theorem feedBytes_append (a b : List Nat) (p : SerialParser) :
    p.feedBytes (a ++ b) =
      ((( p.feedBytes a).1.feedBytes b).1,
       (p.feedBytes a).2 ++ ((p.feedBytes a).1.feedBytes b).2) := by
  induction a generalizing p with
  | nil => simp [SerialParser.feedBytes]
  | cons x xs ih =>
    show SerialParser.feedBytes p (x :: (xs ++ b)) = _
    simp only [SerialParser.feedBytes, ih (p.feedByte x).1, List.append_assoc]


theorem feedBytes_nil (p : SerialParser) : p.feedBytes [] = (p, []) := rfl

theorem feedBytes_cons (p : SerialParser) (b : Nat) (bs : List Nat) :
    p.feedBytes (b :: bs) =
      (((p.feedByte b).1.feedBytes bs).1,
       (p.feedByte b).2 ++ ((p.feedByte b).1.feedBytes bs).2) := rfl

theorem feedByte_sync_start (p : SerialParser) (hs : p.state = .SYNC) :
    p.feedByte 0xAA = ({ p with state := .ID }, []) := by
  unfold SerialParser.feedByte
  rw [hs]
  simp

theorem feedByte_sync_text (p : SerialParser) (b : Nat) (hs : p.state = .SYNC)
    (hb1 : b ≠ 0xAA) (hb2 : b ≠ 0x0A) :
    p.feedByte b = ({ p with logBuffer := p.logBuffer ++ [b] }, []) := by
  unfold SerialParser.feedByte
  rw [hs]
  simp only [if_neg hb1, if_pos hb2]

theorem feedByte_sync_newline (p : SerialParser) (hs : p.state = .SYNC) :
    p.feedByte 0x0A = ({ p with logBuffer := [] }, [.log p.logBuffer]) := by
  unfold SerialParser.feedByte
  rw [hs]
  norm_num

theorem feedByte_id (p : SerialParser) (i : Nat) (hs : p.state = .ID) :
    p.feedByte i =
      ({ p with msgId := resolveId i,
                expectedPayloadSize := messageSize (resolveId i),
                payload := [],
                state := if messageSize (resolveId i) > 0 then .PAYLOAD else .CHECKSUM },
       []) := by
  unfold SerialParser.feedByte resolveId
  rw [hs]

theorem feedByte_checksum (p : SerialParser) (b : Nat) (hs : p.state = .CHECKSUM) :
    p.feedByte b =
      ({ p with state := .SYNC },
       [.frame (SerialMessage.fromMessage p.msgId p.payload (some b))]) := by
  unfold SerialParser.feedByte
  rw [hs]

theorem feedBytes_log_run (ts : List Nat) (p : SerialParser)
    (hs : p.state = .SYNC) (hb : ∀ b ∈ ts, b ≠ 0xAA ∧ b ≠ 0x0A) :
    p.feedBytes ts = ({ p with logBuffer := p.logBuffer ++ ts }, []) := by
  induction ts generalizing p with
  | nil => simp [SerialParser.feedBytes]
  | cons x xs ih =>
    have hx := hb x (by simp)
    rw [feedBytes_cons, feedByte_sync_text p x hs hx.1 hx.2]
    rw [ih { p with logBuffer := p.logBuffer ++ [x] } hs
      (fun b hbm => hb b (by simp [hbm]))]
    simp

theorem feedBytes_payload_run (xs : List Nat) (p : SerialParser)
    (hs : p.state = .PAYLOAD)
    (hlen : p.payload.length + xs.length = p.expectedPayloadSize)
    (hne : xs ≠ []) :
    p.feedBytes xs = ({ p with state := .CHECKSUM, payload := p.payload ++ xs }, []) := by
  induction xs generalizing p with
  | nil => exact absurd rfl hne
  | cons x xs ih =>
    rw [feedBytes_cons]
    have hstep : p.feedByte x =
        ({ p with payload := p.payload ++ [x],
                  state := if (p.payload ++ [x]).length = p.expectedPayloadSize
                    then .CHECKSUM else .PAYLOAD }, []) := by
      unfold SerialParser.feedByte
      rw [hs]
    rw [hstep]
    cases xs with
    | nil =>
      have hfull : (p.payload ++ [x]).length = p.expectedPayloadSize := by
        simp at hlen ⊢
        omega
      rw [if_pos hfull, feedBytes_nil]
      simp
    | cons y ys =>
      have hnot : ¬ (p.payload ++ [x]).length = p.expectedPayloadSize := by
        simp at hlen ⊢
        omega
      rw [if_neg hnot]
      rw [ih { p with payload := p.payload ++ [x], state := .PAYLOAD } rfl
        (by simp at hlen ⊢; omega) (by simp)]
      simp

theorem feedBytes_frame (p : SerialParser) (i c : Nat) (pl : List Nat)
    (hs : p.state = .SYNC)
    (hlen : pl.length = messageSize (resolveId i)) :
    p.feedBytes (0xAA :: i :: pl ++ [c]) =
      ({ p with state := .SYNC,
                msgId := resolveId i,
                expectedPayloadSize := messageSize (resolveId i),
                payload := pl },
       [.frame (SerialMessage.fromMessage (resolveId i) pl (some c))]) := by
  simp only [List.cons_append]
  rw [feedBytes_cons, feedByte_sync_start p hs]
  rw [feedBytes_cons, feedByte_id { p with state := .ID } i rfl]
  by_cases hsz : messageSize (resolveId i) > 0
  · rw [if_pos hsz]
    have hne : pl ≠ [] := by
      intro hnil
      rw [hnil] at hlen
      simp at hlen
      omega
    rw [feedBytes_append pl [c]]
    rw [feedBytes_payload_run pl
      { p with state := .PAYLOAD, msgId := resolveId i,
               expectedPayloadSize := messageSize (resolveId i), payload := [] }
      rfl (by simpa using hlen) hne]
    rw [feedBytes_cons]
    rw [feedByte_checksum
      { p with state := .CHECKSUM, msgId := resolveId i,
               expectedPayloadSize := messageSize (resolveId i), payload := [] ++ pl }
      c rfl]
    rw [feedBytes_nil]
    simp
  · rw [if_neg hsz]
    have hnil : pl = [] := List.length_eq_zero.mp (by omega)
    subst hnil
    simp only [List.nil_append]
    rw [feedBytes_cons]
    rw [feedByte_checksum
      { p with state := .CHECKSUM, msgId := resolveId i,
               expectedPayloadSize := messageSize (resolveId i), payload := [] }
      c rfl]
    rw [feedBytes_nil]
    simp

theorem resolveId_toNat (t : SerialMessages) : resolveId t.toNat = t := by
  rw [resolveId, ofNat?_toNat]
  rfl

theorem feedBytes_wireFrame (p : SerialParser) (t : SerialMessages) (pl : List Nat)
    (hs : p.state = .SYNC) (hlen : pl.length = messageSize t) :
    p.feedBytes (wireFrame t pl) =
      ({ p with state := .SYNC, msgId := t,
                expectedPayloadSize := messageSize t, payload := pl },
       [.frame { message := t, payload := pl, size := messageSize t }]) := by
  have h := feedBytes_frame p t.toNat (checksum t pl) pl hs
    (by rw [resolveId_toNat]; exact hlen)
  rw [resolveId_toNat] at h
  rw [fromMessage_valid t pl hlen] at h
  rw [wireFrame]
  unfold SERIAL_FRAME_START
  exact h

/-- Claim C3: feeding two back-to-back valid wire frames byte by byte
emits exactly the two correctly decoded messages, in order, and leaves
the parser in the SYNC state. -/
theorem c3_parser_two_frames (t1 t2 : SerialMessages) (p1 p2 : List Nat)
    (h1 : p1.length = messageSize t1) (h2 : p2.length = messageSize t2) :
    (SerialParser.init.feedBytes (wireFrame t1 p1 ++ wireFrame t2 p2)).2 =
      [.frame { message := t1, payload := p1, size := messageSize t1 },
       .frame { message := t2, payload := p2, size := messageSize t2 }] ∧
    (SerialParser.init.feedBytes (wireFrame t1 p1 ++ wireFrame t2 p2)).1.state =
      .SYNC := by
  rw [feedBytes_append]
  rw [feedBytes_wireFrame SerialParser.init t1 p1 rfl h1]
  rw [feedBytes_wireFrame _ t2 p2 rfl h2]
  exact ⟨rfl, rfl⟩

/-- Witness for claim C3 with a STATE frame followed by a PING frame. -/
theorem c3_parser_two_frames_witness :
    (SerialParser.init.feedBytes (wireFrame .STATE [2] ++ wireFrame .PING [])).2 =
      [.frame { message := SerialMessages.STATE, payload := [2], size := 1 },
       .frame { message := SerialMessages.PING, payload := [], size := 0 }] ∧
    (SerialParser.init.feedBytes (wireFrame .STATE [2] ++ wireFrame .PING [])).1.state =
      ParserPhase.SYNC :=
  c3_parser_two_frames .STATE .PING [2] [] (by decide) (by decide)

/-- Claim C10: text bytes buffered before a frame survive the frame; the
parser emits the frame, then one log line containing the text fed before
and after it, and ends in SYNC with an empty log buffer. -/
theorem c10_log_buffer_survives_frame (ts1 ts2 pl : List Nat) (i c : Nat)
    (h1 : ∀ b ∈ ts1, b ≠ 0xAA ∧ b ≠ 0x0A)
    (h2 : ∀ b ∈ ts2, b ≠ 0xAA ∧ b ≠ 0x0A)
    (hlen : pl.length = messageSize (resolveId i)) :
    (SerialParser.init.feedBytes
        (ts1 ++ (0xAA :: i :: pl ++ [c]) ++ ts2 ++ [0x0A])).2 =
      [.frame (SerialMessage.fromMessage (resolveId i) pl (some c)),
       .log (ts1 ++ ts2)] ∧
    (SerialParser.init.feedBytes
        (ts1 ++ (0xAA :: i :: pl ++ [c]) ++ ts2 ++ [0x0A])).1.state = .SYNC ∧
    (SerialParser.init.feedBytes
        (ts1 ++ (0xAA :: i :: pl ++ [c]) ++ ts2 ++ [0x0A])).1.logBuffer = [] := by
  rw [feedBytes_append, feedBytes_append, feedBytes_append]
  rw [feedBytes_log_run ts1 SerialParser.init rfl h1]
  rw [feedBytes_frame _ i c pl rfl hlen]
  rw [feedBytes_log_run ts2 _ rfl h2]
  rw [feedBytes_cons]
  rw [feedByte_sync_newline _ rfl]
  rw [feedBytes_nil]
  refine ⟨?_, rfl, rfl⟩
  show [] ++ ([ParserEvent.frame _] ++ ([] ++ ([ParserEvent.log _] ++ []))) = _
  simp [SerialParser.init]

/-- Witness for claim C10: one text byte, a STATE frame, another text
byte, then a newline. -/
theorem c10_log_buffer_survives_frame_witness :
    (SerialParser.init.feedBytes
        ([72] ++ (0xAA :: 4 :: [2] ++ [6]) ++ [33] ++ [0x0A])).2 =
      [.frame (SerialMessage.fromMessage (resolveId 4) [2] (some 6)),
       .log ([72] ++ [33])] ∧
    (SerialParser.init.feedBytes
        ([72] ++ (0xAA :: 4 :: [2] ++ [6]) ++ [33] ++ [0x0A])).1.state =
      ParserPhase.SYNC ∧
    (SerialParser.init.feedBytes
        ([72] ++ (0xAA :: 4 :: [2] ++ [6]) ++ [33] ++ [0x0A])).1.logBuffer = [] :=
  c10_log_buffer_survives_frame [72] [33] [2] 4 6 (by decide) (by decide) (by decide)

theorem natFromBytesLE_single (v : Nat) : natFromBytesLE [v] = v := by
  simp [natFromBytesLE]

theorem pyInt_intCast (n : Int) : pyInt ((n : Rat)) = n := by
  unfold pyInt
  rw [Rat.num_intCast, Rat.den_intCast]
  exact Int.tdiv_one n

/-- Claim C4: two consecutive STATE frames with the same raw value: the
updater reports changed on the first call only, attr_changed fires only
on the first call, and state_changed fires on both calls. -/
theorem c4_state_dedup_events (lf : LineFollowerState) (mp : Mapper) (v : Nat)
    (s : RobotStates) (hv : RobotStates.ofNat? v = some s) (hne : lf.state ≠ some s) :
    configUpdate lf .STATE v = .ok true { lf with state := some s } ∧
    handleSerialMessage lf mp { message := .STATE, payload := [v], size := 1 } =
      some ({ lf with state := some s }, mp,
        [.stateChanged s, .attrChanged .STATE v]) ∧
    configUpdate { lf with state := some s } .STATE v =
      .ok false { lf with state := some s } ∧
    handleSerialMessage { lf with state := some s } mp
        { message := .STATE, payload := [v], size := 1 } =
      some ({ lf with state := some s }, mp, [.stateChanged s]) := by
  have hc1 : configUpdate lf .STATE v = .ok true { lf with state := some s } := by
    simp only [configUpdate, hv]
    rw [if_neg hne]
  have hc2 : configUpdate { lf with state := some s } .STATE v =
      .ok false { lf with state := some s } := by
    simp only [configUpdate, hv]
    simp
  refine ⟨hc1, ?_, hc2, ?_⟩
  · simp [handleSerialMessage, natFromBytesLE_single, hc1]
  · simp [handleSerialMessage, natFromBytesLE_single, hc2]

/-- Witness for claim C4: raw value 2 decoding to RUNNING on a fresh
state store. -/
theorem c4_state_dedup_events_witness :
    configUpdate initialLineFollower .STATE 2 =
      .ok true { initialLineFollower with state := some .RUNNING } ∧
    handleSerialMessage initialLineFollower initMapper
        { message := .STATE, payload := [2], size := 1 } =
      some ({ initialLineFollower with state := some .RUNNING }, initMapper,
        [.stateChanged .RUNNING, .attrChanged .STATE 2]) ∧
    configUpdate { initialLineFollower with state := some .RUNNING } .STATE 2 =
      .ok false { initialLineFollower with state := some .RUNNING } ∧
    handleSerialMessage { initialLineFollower with state := some .RUNNING } initMapper
        { message := .STATE, payload := [2], size := 1 } =
      some ({ initialLineFollower with state := some .RUNNING }, initMapper,
        [.stateChanged .RUNNING]) :=
  c4_state_dedup_events initialLineFollower initMapper 2 .RUNNING rfl
    (by simp [initialLineFollower])

/-- Counterexample for claim C5: a decodable STATE frame carrying the raw
value 5 makes the store raise a ValueError in RobotStates(value). -/
theorem c5_counterexample :
    handleSerialMessage initialLineFollower initMapper
      { message := .STATE, payload := [5], size := 1 } = none := by
  rfl

theorem update_isSome (payload : List Nat) (h : 2 ≤ payload.length) :
    (OperationDataR.update payload).isSome := by
  unfold OperationDataR.update
  rw [if_neg (by omega)]
  rfl

theorem handleOperationData_isSome (mp : Mapper) (payload : List Nat)
    (h : 2 ≤ payload.length) :
    (Mapper.handleOperationData mp payload).isSome := by
  obtain ⟨od, hod⟩ := Option.isSome_iff_exists.mp (update_isSome payload h)
  unfold Mapper.handleOperationData
  simp only [hod]
  split <;> rfl

theorem configUpdate_not_raised (lf : LineFollowerState) (t : SerialMessages) (v : Nat)
    (hS : t = .STATE → (RobotStates.ofNat? v).isSome)
    (hR : t = .RUNNING_MODE → (RunningModes.ofNat? v).isSome)
    (hSt : t = .STOP_MODE → (StopModes.ofNat? v).isSome) :
    configUpdate lf t v ≠ .raised := by
  cases t <;> simp only [configUpdate]
  case STATE =>
    obtain ⟨s, hs⟩ := Option.isSome_iff_exists.mp (hS rfl)
    simp only [hs]
    split <;> simp
  case RUNNING_MODE =>
    obtain ⟨m, hm⟩ := Option.isSome_iff_exists.mp (hR rfl)
    simp only [hm]
    split <;> simp
  case STOP_MODE =>
    obtain ⟨m, hm⟩ := Option.isSome_iff_exists.mp (hSt rfl)
    simp only [hm]
    split <;> simp
  all_goals simp

theorem toBytesLE_length (n v : Nat) : (toBytesLE n v).length = n := by
  induction n generalizing v with
  | zero => rfl
  | succ n ih => simp [toBytesLE, ih]

theorem fromMessage_none_valid (t : SerialMessages) (p : List Nat)
    (hlen : p.length = messageSize t) :
    SerialMessage.fromMessage t p none =
      { message := t, payload := p, size := messageSize t } := by
  unfold SerialMessage.fromMessage
  rw [if_neg (by omega)]

/-- Claim C5 (amended): the store handler never raises on frames whose
enum-typed raw values are enum members and whose OPERATION_DATA payload
has at least two bytes; from_int and from_float never raise when the
converted integer is representable in the declared byte width. -/
theorem c5_no_raise_amended :
    (∀ (lf : LineFollowerState) (mp : Mapper) (msg : SerialMessage),
      (msg.message = .STATE →
        (RobotStates.ofNat? (natFromBytesLE msg.payload)).isSome) →
      (msg.message = .RUNNING_MODE →
        (RunningModes.ofNat? (natFromBytesLE msg.payload)).isSome) →
      (msg.message = .STOP_MODE →
        (StopModes.ofNat? (natFromBytesLE msg.payload)).isSome) →
      (msg.message = .OPERATION_DATA → 2 ≤ msg.payload.length) →
      (handleSerialMessage lf mp msg).isSome) ∧
    (∀ (t : SerialMessages) (v : Int), 0 ≤ v → v < (256 : Int) ^ messageSize t →
      (SerialMessage.fromInt t v).isSome) ∧
    (∀ (t : SerialMessages) (v : Rat), 0 ≤ pyInt (v * 100) →
      pyInt (v * 100) < (256 : Int) ^ messageSize t →
      (SerialMessage.fromFloat t v).isSome) := by
  refine ⟨?_, ?_, ?_⟩
  · intro lf mp msg hS hR hSt hOp
    unfold handleSerialMessage
    by_cases hop : msg.message = .OPERATION_DATA
    · rw [if_pos hop]
      obtain ⟨mp2, hmp2⟩ := Option.isSome_iff_exists.mp
        (handleOperationData_isSome mp msg.payload (hOp hop))
      rw [hmp2]
      rfl
    · rw [if_neg hop]
      cases hcu : configUpdate lf msg.message (natFromBytesLE msg.payload) with
      | notHandled => simp [hcu]
      | raised => exact absurd hcu (configUpdate_not_raised lf _ _ hS hR hSt)
      | ok changed lf2 => simp [hcu]
  · intro t v h0 hlt
    unfold SerialMessage.fromInt pyToBytes
    rw [if_pos ⟨h0, hlt⟩]
    rfl
  · intro t v h0 hlt
    unfold SerialMessage.fromFloat pyToBytes
    rw [if_pos ⟨h0, hlt⟩]
    rfl

/-- Witness for claim C5: a STATE frame with a member value, from_int at
an in-range value, from_float at an in-range value. -/
theorem c5_no_raise_amended_witness :
    (handleSerialMessage initialLineFollower initMapper
      { message := .STATE, payload := [2], size := 1 }).isSome ∧
    (SerialMessage.fromInt .STATE 3).isSome ∧
    (SerialMessage.fromFloat .SPEED_KI 3).isSome :=
  ⟨c5_no_raise_amended.1 initialLineFollower initMapper
      { message := .STATE, payload := [2], size := 1 }
      (by decide) (by decide) (by decide) (by decide),
   c5_no_raise_amended.2.1 .STATE 3 (by norm_num) (by decide),
   c5_no_raise_amended.2.2 .SPEED_KI 3
     (by rw [show (3 : Rat) * 100 = ((300 : Int) : Rat) from by norm_num, pyInt_intCast]; norm_num)
     (by rw [show (3 : Rat) * 100 = ((300 : Int) : Rat) from by norm_num, pyInt_intCast]; decide)⟩

/-- Counterexample for claim C6: from_float on SPEED_KI at the exactly
representable value 3 encodes 300 (multiplier 100), not the 30000 the
declared scale 10000 with rounding would give. -/
theorem c6_counterexample :
    SerialMessage.fromFloat .SPEED_KI 3 =
      some { message := .SPEED_KI, payload := [44, 1], size := 2 } ∧
    fromFloatSpec .SPEED_KI 3 =
      some { message := .SPEED_KI, payload := [48, 117], size := 2 } ∧
    SerialMessage.fromFloat .SPEED_KI 3 ≠ fromFloatSpec .SPEED_KI 3 := by
  have h1 : (3 : Rat) * 100 = ((300 : Int) : Rat) := by norm_num
  have h2 : (3 : Rat) * ((floatScale .SPEED_KI : Nat) : Rat) = ((30000 : Int) : Rat) := by
    norm_num [floatScale]
  have hp1 : pyInt ((3 : Rat) * 100) = 300 := by rw [h1, pyInt_intCast]
  have hr2 : ratRound ((3 : Rat) * ((floatScale .SPEED_KI : Nat) : Rat)) = 30000 := by
    rw [h2]
    unfold ratRound
    rw [Rat.num_intCast, Rat.den_intCast]
    decide
  have ha : SerialMessage.fromFloat .SPEED_KI 3 =
      some { message := .SPEED_KI, payload := [44, 1], size := 2 } := by
    unfold SerialMessage.fromFloat
    rw [hp1]
    decide
  have hb : fromFloatSpec .SPEED_KI 3 =
      some { message := .SPEED_KI, payload := [48, 117], size := 2 } := by
    unfold fromFloatSpec
    rw [hr2]
    decide
  exact ⟨ha, hb, by rw [ha, hb]; decide⟩

theorem natFromBytesLE_toBytesLE (n v : Nat) (h : v < 256 ^ n) :
    natFromBytesLE (toBytesLE n v) = v := by
  induction n generalizing v with
  | zero =>
    have : v = 0 := by simpa using h
    simp [this, toBytesLE, natFromBytesLE]
  | succ n ih =>
    have hstep : natFromBytesLE (v % 256 :: toBytesLE n (v / 256)) =
        v % 256 + 256 * natFromBytesLE (toBytesLE n (v / 256)) := rfl
    have hdiv : v / 256 < 256 ^ n := by
      rw [Nat.div_lt_iff_lt_mul (by norm_num)]
      rw [pow_succ] at h
      exact h
    show natFromBytesLE (v % 256 :: toBytesLE n (v / 256)) = v
    rw [hstep, ih (v / 256) hdiv]
    omega

/-- Claim C6 (amended): from_float multiplies every value by 100,
whatever the message type (the SPEED_KI scale of 10000 is not applied),
truncates toward zero, and encodes the result little-endian unsigned in
the declared width; the payload decodes back to that truncated integer. -/
theorem c6_fromFloat_times100_truncated (t : SerialMessages) (v : Rat)
    (h0 : 0 ≤ pyInt (v * 100)) (hlt : pyInt (v * 100) < (256 : Int) ^ messageSize t) :
    SerialMessage.fromFloat t v =
      some { message := t,
             payload := toBytesLE (messageSize t) (pyInt (v * 100)).toNat,
             size := messageSize t } ∧
    natFromBytesLE (toBytesLE (messageSize t) (pyInt (v * 100)).toNat) =
      (pyInt (v * 100)).toNat := by
  constructor
  · unfold SerialMessage.fromFloat pyToBytes
    rw [if_pos ⟨h0, hlt⟩]
    rw [Option.map_some', fromMessage_none_valid t _ (toBytesLE_length _ _)]
  · apply natFromBytesLE_toBytesLE
    have : ((pyInt (v * 100)).toNat : Int) < ((256 : Nat) ^ messageSize t : Nat) := by
      rw [Int.toNat_of_nonneg h0]
      push_cast
      exact hlt
    exact_mod_cast this

/-- Witness for claim C6 at SPEED_KI with value 3. -/
theorem c6_fromFloat_times100_truncated_witness :
    SerialMessage.fromFloat .SPEED_KI 3 =
      some { message := SerialMessages.SPEED_KI,
             payload := toBytesLE (messageSize .SPEED_KI) (pyInt (3 * 100)).toNat,
             size := messageSize .SPEED_KI } ∧
    natFromBytesLE (toBytesLE (messageSize .SPEED_KI) (pyInt (3 * 100)).toNat) =
      (pyInt (3 * 100)).toNat := by
  have h1 : (3 : Rat) * 100 = ((300 : Int) : Rat) := by norm_num
  have hp1 : pyInt ((3 : Rat) * 100) = 300 := by rw [h1, pyInt_intCast]
  exact c6_fromFloat_times100_truncated .SPEED_KI 3 (by rw [hp1]; norm_num)
    (by rw [hp1]; decide)

/-- Counterexample for claim C7: selecting the already configured port
while disconnected and available returns False, although none of the two
failure conditions the claim lists holds. -/
theorem c7_counterexample :
    setComPort ["COM1"] { comPort := "COM1", connected := false } "COM1" =
      (false, { comPort := "COM1", connected := false }) ∧
    ({ comPort := "COM1", connected := false } : BtState).connected = false ∧
    "COM1" ∈ listAvailablePorts ["COM1"] := by
  refine ⟨by decide, rfl, by decide⟩

/-- Claim C7 (amended): set_com_port returns False and leaves the state
unchanged exactly when the name equals the configured port, the manager
is connected, or the name is not among the available ports; otherwise it
stores the name and returns True. -/
theorem c7_setComPort_characterization (avail : List String) (st : BtState) (p : String) :
    setComPort avail st p =
      if p = st.comPort ∨ st.connected = true ∨ p ∉ listAvailablePorts avail
      then (false, st)
      else (true, { st with comPort := p }) := by
  unfold setComPort
  split_ifs <;> first | rfl | tauto

/-- Claim C8: list_available_ports sorts the enumerated ports by the
natural-sort key (trailing number ascending, numberless ports last, ties
by lowercased name); in particular the documented four-port example. -/
theorem c8_natural_port_order :
    listAvailablePorts ["COM2", "COM10", "COM1", "BT-Serial"] =
      ["COM1", "COM2", "COM10", "BT-Serial"] ∧
    ∀ l : List String, (listAvailablePorts l).Perm l ∧
      (listAvailablePorts l).Sorted portLE :=
  ⟨by decide,
   fun l => ⟨List.perm_insertionSort portLE l, List.sorted_insertionSort portLE l⟩⟩

theorem handleOperationData_eq (mp : Mapper) (p : List Nat) (od : OperationDataR)
    (hup : OperationDataR.update p = some od) :
    Mapper.handleOperationData mp p =
      if od.x = mp.lastEncoderUpdate.x ∧ od.y = mp.lastEncoderUpdate.y ∧
          od.heading = mp.lastEncoderUpdate.heading then
        some { mp with
                operationData := od,
                binaryLog := mp.binaryLog ++ [p],
                sensorCsv := mp.sensorCsv ++ [csvRow od] }
      else
        some { mp with
                operationData := od,
                binaryLog := mp.binaryLog ++ [p],
                sensorCsv := mp.sensorCsv ++ [csvRow od],
                lastEncoderUpdate := od,
                encoderCsv := mp.encoderCsv ++ [csvRow od] } := by
  unfold Mapper.handleOperationData
  simp only [hup]

theorem update_sensors_length (p : List Nat) (od : OperationDataR)
    (hup : OperationDataR.update p = some od) : od.sensors.length = 10 := by
  unfold OperationDataR.update at hup
  by_cases h2 : p.length < 2
  · rw [if_pos h2] at hup
    exact Option.noConfusion hup
  · rw [if_neg h2] at hup
    injection hup with h
    rw [← h]
    simp

theorem getD_append_length {α : Type} (l1 l2 : List α) (k : Nat) (d : α) :
    (l1 ++ l2).getD (l1.length + k) d = l2.getD k d := by
  induction l1 with
  | nil => simp
  | cons a tl ih => simpa [Nat.succ_add] using ih

theorem getD_triple_append {α : Type} (l : List α) (x y z d : α) (hl : l.length = 10) :
    ((l ++ [x, y, z]).getD 10 d, (l ++ [x, y, z]).getD 11 d,
      (l ++ [x, y, z]).getD 12 d) = (x, y, z) := by
  have e10 : (10 : Nat) = l.length + 0 := by omega
  have e11 : (11 : Nat) = l.length + 1 := by omega
  have e12 : (12 : Nat) = l.length + 2 := by omega
  rw [e10, e11, e12, getD_append_length, getD_append_length, getD_append_length]
  rfl

theorem rowXYH_csvRow (od : OperationDataR) (hs : od.sensors.length = 10) :
    rowXYH (csvRow od) = odXYH od := by
  unfold rowXYH csvRow odXYH
  exact getD_triple_append _ _ _ _ _ (by simp [hs])

/-- Counterexample for claim C9: an all-zero first OPERATION_DATA frame
gets no gated row even though the gated CSV has no last written row to
match it. -/
theorem c9_counterexample : ¬ claimGatedByLastRow := by
  intro h
  have hod : OperationDataR.update (List.replicate 8 0) = some emptyOperationData := by
    decide
  have hmp2 : Mapper.handleOperationData initMapper (List.replicate 8 0) =
      some { initMapper with
              operationData := emptyOperationData,
              binaryLog := initMapper.binaryLog ++ [List.replicate 8 0],
              sensorCsv := initMapper.sensorCsv ++ [csvRow emptyOperationData] } := by
    rw [handleOperationData_eq initMapper (List.replicate 8 0) emptyOperationData hod]
    rw [if_pos (by decide)]
  have hiff := h initMapper (List.replicate 8 0) (by decide) _ hmp2 _ hod
  have hR : initMapper.encoderCsv.getLast?.map rowXYH ≠ some (odXYH emptyOperationData) := by
    simp [initMapper]
  have hL := hiff.mpr hR
  simp [initMapper] at hL

/-- Claim C9 (amended): every 8-byte payload appends its raw bytes to the
binary log and a row to the full-rate CSV; a row goes to the gated CSV
exactly when x, y or heading differs from the retained last-logged
record, which starts all-zero and afterwards always carries the values of
the last gated row; hence two identical consecutive frames that differ
from the record produce two full-rate rows and one gated row. -/
theorem c9_gating_amended (mp : Mapper) (p : List Nat) (od : OperationDataR)
    (_hlen : p.length = 8) (hup : OperationDataR.update p = some od) :
    (Mapper.handleOperationData mp p =
      if odXYH od = odXYH mp.lastEncoderUpdate then
        some { mp with
                operationData := od,
                binaryLog := mp.binaryLog ++ [p],
                sensorCsv := mp.sensorCsv ++ [csvRow od] }
      else
        some { mp with
                operationData := od,
                binaryLog := mp.binaryLog ++ [p],
                sensorCsv := mp.sensorCsv ++ [csvRow od],
                lastEncoderUpdate := od,
                encoderCsv := mp.encoderCsv ++ [csvRow od] }) ∧
    (encoderInv mp → ∀ mp2, Mapper.handleOperationData mp p = some mp2 → encoderInv mp2) ∧
    (odXYH od ≠ odXYH mp.lastEncoderUpdate →
      ∀ mp2, mapperRun mp [p, p] = some mp2 →
        mp2.sensorCsv.length = mp.sensorCsv.length + 2 ∧
        mp2.encoderCsv.length = mp.encoderCsv.length + 1) := by
  have hsens := update_sensors_length p od hup
  have hcond : (odXYH od = odXYH mp.lastEncoderUpdate) ↔
      (od.x = mp.lastEncoderUpdate.x ∧ od.y = mp.lastEncoderUpdate.y ∧
        od.heading = mp.lastEncoderUpdate.heading) := by
    unfold odXYH
    constructor
    · intro hh
      injection hh with h1 h2
      injection h2 with h2 h3
      exact ⟨by exact_mod_cast h1, by exact_mod_cast h2, h3⟩
    · rintro ⟨h1, h2, h3⟩
      rw [h1, h2, h3]
  have hmain : Mapper.handleOperationData mp p =
      if odXYH od = odXYH mp.lastEncoderUpdate then
        some { mp with
                operationData := od,
                binaryLog := mp.binaryLog ++ [p],
                sensorCsv := mp.sensorCsv ++ [csvRow od] }
      else
        some { mp with
                operationData := od,
                binaryLog := mp.binaryLog ++ [p],
                sensorCsv := mp.sensorCsv ++ [csvRow od],
                lastEncoderUpdate := od,
                encoderCsv := mp.encoderCsv ++ [csvRow od] } := by
    rw [handleOperationData_eq mp p od hup]
    by_cases hc : odXYH od = odXYH mp.lastEncoderUpdate
    · rw [if_pos hc, if_pos (hcond.mp hc)]
    · rw [if_neg hc, if_neg (fun hh => hc (hcond.mpr hh))]
  refine ⟨hmain, ?_, ?_⟩
  · intro hinv mp2 hmp2
    rw [hmain] at hmp2
    by_cases hc : odXYH od = odXYH mp.lastEncoderUpdate
    · rw [if_pos hc] at hmp2
      injection hmp2 with hmp2
      rw [← hmp2]
      intro hne
      exact hinv hne
    · rw [if_neg hc] at hmp2
      injection hmp2 with hmp2
      rw [← hmp2]
      intro _
      rw [List.getLast?_append]
      simp [rowXYH_csvRow od hsens]
  · intro hne mp2 hrun
    unfold mapperRun at hrun
    rw [hmain, if_neg hne] at hrun
    unfold mapperRun at hrun
    rw [handleOperationData_eq _ p od hup] at hrun
    rw [if_pos ⟨rfl, rfl, rfl⟩] at hrun
    unfold mapperRun at hrun
    injection hrun with hrun
    rw [← hrun]
    constructor <;> simp

/-- Witness for claim C9 at a first frame whose x coordinate is 1. -/
theorem c9_gating_amended_witness :
    Mapper.handleOperationData initMapper [0, 0, 1, 0, 0, 0, 0, 0] =
      some { initMapper with
              operationData := { emptyOperationData with x := 1 },
              binaryLog := initMapper.binaryLog ++ [[0, 0, 1, 0, 0, 0, 0, 0]],
              sensorCsv := initMapper.sensorCsv ++
                [csvRow { emptyOperationData with x := 1 }],
              lastEncoderUpdate := { emptyOperationData with x := 1 },
              encoderCsv := initMapper.encoderCsv ++
                [csvRow { emptyOperationData with x := 1 }] } ∧
    (∀ mp2,
      mapperRun initMapper [[0, 0, 1, 0, 0, 0, 0, 0], [0, 0, 1, 0, 0, 0, 0, 0]] =
        some mp2 →
      mp2.sensorCsv.length = 2 ∧ mp2.encoderCsv.length = 1) := by
  have hup : OperationDataR.update [0, 0, 1, 0, 0, 0, 0, 0] =
      some { emptyOperationData with x := 1 } := by decide
  have hneq : odXYH { emptyOperationData with x := 1 } ≠
      odXYH initMapper.lastEncoderUpdate := by
    intro heq
    have hx := congrArg (fun t => t.1) heq
    simp [odXYH, initMapper, emptyOperationData] at hx
  have h := c9_gating_amended initMapper [0, 0, 1, 0, 0, 0, 0, 0]
    { emptyOperationData with x := 1 } (by decide) hup
  refine ⟨?_, fun mp2 hrun => by simpa [initMapper] using h.2.2 hneq mp2 hrun⟩
  rw [h.1, if_neg hneq]
